import Mathlib

/-!
Shallow embedding of the spacebuild server core (Rust) for checking its
natural-language specification.

Modelling conventions:
* `f64` values are modelled as exact rationals (`ℚ`); floating-point rounding
  is outside the scope of the statements below, which concern the control and
  data flow of the code.
* The external `scilib` coordinate conversions (cartesian ↔ spherical) and the
  `f64::is_normal` predicate are external-crate / standard-library code, not
  code of this repository; they are abstracted as an explicit `Kernel` of
  functions and all theorems quantify over every kernel.
* The Rust `%` on `f64` (remainder with the sign of the dividend, used for the
  angle wrap in `Galaxy::update`) is modelled exactly on `ℚ` by `ratRem`.
* `tokio` channels are modelled by lists: the drained inbound queue of a
  player is a list of actions, and the emitted outbound messages are returned
  as a list.
* Panicking paths (`unwrap`, `assert!`, `todo!`) are modelled with `Option`.
-/

/-- Cartesian 3-vector, modelling `scilib::coordinate::cartesian::Cartesian`
with exact rational components. -/
structure Cart where
  x : ℚ
  y : ℚ
  z : ℚ
deriving DecidableEq, Repr

instance : Add Cart := ⟨fun a b => ⟨a.x + b.x, a.y + b.y, a.z + b.z⟩⟩
instance : Sub Cart := ⟨fun a b => ⟨a.x - b.x, a.y - b.y, a.z - b.z⟩⟩

instance : Inhabited Cart := ⟨⟨0, 0, 0⟩⟩

/-- Componentwise unfolding of vector addition. -/
theorem Cart.add_def (a b : Cart) : a + b = ⟨a.x + b.x, a.y + b.y, a.z + b.z⟩ := rfl

/-- Componentwise unfolding of vector subtraction. -/
theorem Cart.sub_def (a b : Cart) : a - b = ⟨a.x - b.x, a.y - b.y, a.z - b.z⟩ := rfl

/-- Componentwise scalar multiplication (`Cartesian * f64`). -/
def Cart.scale (a : Cart) (q : ℚ) : Cart := ⟨a.x * q, a.y * q, a.z * q⟩

/-- Componentwise scalar division (`Cartesian / f64`). -/
def Cart.scaleDiv (a : Cart) (q : ℚ) : Cart := ⟨a.x / q, a.y / q, a.z / q⟩

/-- Spherical coordinate triple, modelling `scilib`'s `Spherical` record
(radius, polar angle `theta`, azimuthal angle `phi`). -/
structure Sph where
  r : ℚ
  theta : ℚ
  phi : ℚ
deriving DecidableEq, Repr

/-- Celestial body, from `src/body.rs` (`Body`): id, cartesian coordinates,
angular rate, id of the orbited body, and a numeric body-type tag. -/
structure GBody where
  id : ℕ
  coords : Cart
  rotating_speed : ℚ
  gravity_center : ℕ
  body_type : ℕ
deriving DecidableEq, Repr

/-- Squared Euclidean distance between two points, as computed inline in
`Galaxy::galactics_in_spherical_view` (`(g.x - c.x)^2 + ...`). -/
def distSq (a b : Cart) : ℚ :=
  (a.x - b.x) ^ 2 + (a.y - b.y) ^ 2 + (a.z - b.z) ^ 2

/-- Broad-phase test of `galactics_in_spherical_view`: the body's point
envelope intersects the axis-aligned box with corners `center ± radius`
(`rstar::AABB::from_corners` / `locate_in_envelope_intersecting`). -/
def inBroadPhase (center : Cart) (radius : ℚ) (b : GBody) : Bool :=
  (center.x - radius ≤ b.coords.x) && (b.coords.x ≤ center.x + radius) &&
  (center.y - radius ≤ b.coords.y) && (b.coords.y ≤ center.y + radius) &&
  (center.z - radius ≤ b.coords.z) && (b.coords.z ≤ center.z + radius)

/-- `Galaxy::galactics_in_spherical_view` (src/galaxy.rs, lines 33-44): the
R-tree is modelled by the list of its bodies; the broad phase keeps bodies
whose envelope intersects the bounding box of the sphere, the narrow phase
keeps those with squared distance to the center at most `radius^2`. -/
def galactics_in_spherical_view (tree : List GBody) (center : Cart) (radius : ℚ) :
    List GBody :=
  let radius_sq := radius * radius
  (tree.filter (inBroadPhase center radius)).filter
    (fun g => distSq g.coords center ≤ radius_sq)

/-- C1: every body returned by the area-of-interest query has true Euclidean
distance from the query center at most the query radius `r ≥ 0`; the
box-shaped broad phase never lets a farther body into the final result. -/
theorem c1_aoi_within_radius (tree : List GBody) (center : Cart) (radius : ℚ)
    (hr : 0 ≤ radius) (b : GBody)
    (hb : b ∈ galactics_in_spherical_view tree center radius) :
    Real.sqrt ((distSq b.coords center : ℚ) : ℝ) ≤ ((radius : ℚ) : ℝ) := by
  have hmem := List.of_mem_filter hb
  have hq : distSq b.coords center ≤ radius * radius := by
    simpa using of_decide_eq_true hmem
  have hcast : ((distSq b.coords center : ℚ) : ℝ) ≤ ((radius : ℚ) : ℝ) ^ 2 := by
    have := (Rat.cast_le (K := ℝ)).mpr hq
    calc ((distSq b.coords center : ℚ) : ℝ)
        ≤ ((radius * radius : ℚ) : ℝ) := this
      _ = ((radius : ℚ) : ℝ) ^ 2 := by push_cast; ring
  have hrr : (0 : ℝ) ≤ ((radius : ℚ) : ℝ) := by exact_mod_cast hr
  calc Real.sqrt ((distSq b.coords center : ℚ) : ℝ)
      ≤ Real.sqrt (((radius : ℚ) : ℝ) ^ 2) := Real.sqrt_le_sqrt hcast
    _ = ((radius : ℚ) : ℝ) := Real.sqrt_sq hrr

/-- Error variants of `src/error.rs` that the embedded code paths use. -/
inductive SbError
  | PlayerIsNew
  | InvalidNickname
  | PlayerAlreadyAuthenticated
  | NotTextMessage
  | NotALoginAction
  | Retry
  | InvalidJson
  | AuthenticationError (reason : String)
deriving DecidableEq, Repr

/-- Player entity, from `src/player.rs` (`Player`); the channel endpoints are
modelled outside the record (inbound actions as an explicit list argument,
outbound messages as an explicit result list). -/
structure GPlayer where
  id : ℕ
  nickname : String
  coords : Cart
  direction : Cart
  current_system : ℕ
  first_state_sent : Bool
  prev_lag_values : List ℚ
  average_lag_value : ℚ
deriving DecidableEq, Repr

/-- A stored SQL cell: integer, real or text column value. String encoding of
numbers on the wire to SQLite is not modelled; Rust's `f64` `to_string`
round-trips exactly, so cells hold the typed values directly. -/
inductive Val
  | I (n : ℕ)
  | R (q : ℚ)
  | S (s : String)
deriving DecidableEq, Repr

/-- Typed positional read of a text column (`row.get(i)`). -/
def rowGetS (r : List Val) (i : ℕ) : String :=
  match r.getD i (Val.S "") with
  | Val.S s => s
  | _ => ""

/-- SQLite `LIKE` compares characters ASCII-case-insensitively (Lean's
`Char.toLower` folds exactly ASCII `A`-`Z`, like SQLite's default). -/
def likeCharEq (a b : Char) : Bool := a.toLower == b.toLower

/-- SQLite `LIKE` pattern matching: `%` matches any sequence of characters
(some suffix of the remaining string matches the rest of the pattern), `_`
matches exactly one character, anything else matches case-insensitively. The
nickname is passed to the query unescaped, so these wildcard semantics apply
to it. -/
def likeMatch : List Char → List Char → Bool
  | [], s => s.isEmpty
  | p :: ps, s =>
      if p = '%' then (s.tails).any (fun t => likeMatch ps t)
      else
        match s with
        | [] => false
        | c :: ss =>
            (if p = '_' then true else likeCharEq p c) && likeMatch ps ss

/-- `LIKE` on strings: does `s` match the pattern? -/
def likeStr (pattern s : String) : Bool := likeMatch pattern.toList s.toList

/-- `SqlDb::select_from_where_like`: rows whose (text) cell at column `col`
LIKE-matches the bound pattern. -/
def selectRowsLike (table : List (List Val)) (col : ℕ) (pattern : String) :
    List (List Val) :=
  table.filter (fun r =>
    match r.getD col (Val.S "") with
    | Val.S s => likeStr pattern s
    | _ => false)

/-- The durable store: one `Body` table and one `Player` table
(`src/sqldb.rs` behind `src/cache.rs`). -/
structure Db where
  bodyTable : List (List Val)
  playerTable : List (List Val)
deriving DecidableEq, Repr

/-- `PlayerCache::can_login` (src/cache.rs, lines 253-275): reject empty or
non-printable nicknames, then reject nicknames of in-memory-resident players,
then report `PlayerIsNew` when storage has no row for the nickname. The
`is_printable` crate predicate is external and passed in abstractly. -/
def can_login (isPrintable : String → Bool) (cache : List (ℕ × GPlayer))
    (playerTable : List (List Val)) (nickname : String) : Except SbError Unit :=
  if nickname.isEmpty || !(isPrintable nickname) then
    Except.error SbError.InvalidNickname
  else if cache.any (fun p => p.2.nickname == nickname) then
    Except.error SbError.PlayerAlreadyAuthenticated
  else if (selectRowsLike playerTable 1 nickname).isEmpty then
    Except.error SbError.PlayerIsNew
  else
    Except.ok ()

/-- The live-world state owned by `Instance` (src/instance.rs): the galaxy's
body set, both entity caches and the storage handle. -/
structure InstanceSt where
  galaxy : List GBody
  bodiesCache : List (ℕ × GBody)
  playersCache : List (ℕ × GPlayer)
  db : Db
deriving Repr

/-- `Instance::authenticate` (src/instance.rs, lines 111-120): dispatch on
`can_login` — `PlayerIsNew` runs `Instance::new_player`, `Ok` runs
`Instance::login`, any other error is returned unchanged. The two success
continuations involve storage id allocation and seeded randomness and are
passed in abstractly; the failure path never invokes them. -/
def authenticate (isPrintable : String → Bool)
    (newPlayerFn loginFn : InstanceSt → String → ℕ × InstanceSt)
    (st : InstanceSt) (nickname : String) : Except SbError ℕ × InstanceSt :=
  match can_login isPrintable st.playersCache st.db.playerTable nickname with
  | Except.error SbError.PlayerIsNew =>
      let r := newPlayerFn st nickname
      (Except.ok r.1, r.2)
  | Except.ok _ =>
      let r := loginFn st nickname
      (Except.ok r.1, r.2)
  | Except.error e => (Except.error e, st)

/-- C2: an empty or non-printable nickname makes `authenticate` fail with
`InvalidNickname`; a (valid) nickname equal to a resident player's nickname
makes it fail with `PlayerAlreadyAuthenticated`; in both failure cases the
returned state is the input state — galaxy, body cache and player cache are
untouched. (The nickname-validity check runs first, so residency is only
reported for nicknames that pass it.) -/
theorem c2_auth_failures (isPrintable : String → Bool)
    (newPlayerFn loginFn : InstanceSt → String → ℕ × InstanceSt)
    (st : InstanceSt) (nickname : String) :
    (nickname.isEmpty = true ∨ isPrintable nickname = false →
      authenticate isPrintable newPlayerFn loginFn st nickname =
        (Except.error SbError.InvalidNickname, st)) ∧
    (nickname.isEmpty = false → isPrintable nickname = true →
      st.playersCache.any (fun p => p.2.nickname == nickname) = true →
      authenticate isPrintable newPlayerFn loginFn st nickname =
        (Except.error SbError.PlayerAlreadyAuthenticated, st)) := by
  constructor
  · rintro (h | h) <;> simp [authenticate, can_login, h]
  · intro h1 h2 h3
    simp [authenticate, can_login, h1, h2, h3]

/-- Concrete resident player for the C2 witness. -/
def c2Player : GPlayer :=
  { id := 1, nickname := "bob", coords := ⟨0, 0, 0⟩, direction := ⟨0, 0, 0⟩,
    current_system := 0, first_state_sent := false, prev_lag_values := [],
    average_lag_value := 0 }

/-- Concrete instance state for the C2 witness. -/
def c2State : InstanceSt :=
  { galaxy := [], bodiesCache := [], playersCache := [(1, c2Player)],
    db := ⟨[], []⟩ }

/-- Witness for C2: both failure cases at concrete inputs. -/
theorem c2_auth_failures_witness :
    authenticate (fun _ => true) (fun s _ => (0, s)) (fun s _ => (0, s))
        c2State "" = (Except.error SbError.InvalidNickname, c2State) ∧
    authenticate (fun _ => true) (fun s _ => (0, s)) (fun s _ => (0, s))
        c2State "bob" =
      (Except.error SbError.PlayerAlreadyAuthenticated, c2State) :=
  ⟨(c2_auth_failures (fun _ => true) (fun s _ => (0, s)) (fun s _ => (0, s))
      c2State "").1 (Or.inl (by decide)),
   (c2_auth_failures (fun _ => true) (fun s _ => (0, s)) (fun s _ => (0, s))
      c2State "bob").2 (by decide) rfl (by decide)⟩

/-- Abstract numeric kernel for the external `scilib` coordinate conversions,
the `f64::is_normal` standard-library predicate, the float constant `PI` and
the vector norm. These are external-crate code; every theorem quantifies over
all kernels, and witnesses instantiate one concretely. -/
structure Kernel where
  toSph : Cart → Sph
  toCart : Sph → Cart
  pi : ℚ
  isNormal : ℚ → Bool
  norm : Cart → ℚ

/-- `protocol::ShipState`. -/
structure ShipState where
  throttle_up : Bool
  direction : Cart
deriving DecidableEq, Repr

/-- `protocol::Action` (client → server), including the `Ping` variant matched
by `Player::update`. -/
inductive SbAction
  | Login (nickname : String)
  | ShipState (s : ShipState)
  | Ping (entity_id : ℕ) (angle : ℚ)
deriving DecidableEq, Repr

/-- `protocol::state::Body` — the body snapshot sent inside `Env` messages;
the numeric body-type tag is serialized to its string form. -/
structure StateBody where
  id : ℕ
  coords : Cart
  rotating_speed : ℚ
  gravity_center : ℕ
  body_type : String
deriving DecidableEq, Repr

/-- `From<body::Body> for protocol::state::Body`. -/
def GBody.toStateBody (b : GBody) : StateBody :=
  { id := b.id, coords := b.coords, rotating_speed := b.rotating_speed,
    gravity_center := b.gravity_center, body_type := toString b.body_type }

/-- `protocol::state::Game` (server → client gameplay messages). -/
inductive Game
  | PlayerMsg (coords : Cart)
  | EnvMsg (bodies : List StateBody)
deriving DecidableEq, Repr

/-- Lookup in a `HashMap<u32, Body>` snapshot, modelled as an association
list. -/
def assocFind (l : List (ℕ × GBody)) (k : ℕ) : Option GBody :=
  (l.find? (fun p => p.1 == k)).map (fun p => p.2)

/-- Local mutable state of the action-drain loop at the top of
`Player::update`: the local `direction` and `throttle_up` variables plus the
player's lag-tracking fields mutated by `Ping`. -/
structure DrainSt where
  direction : Cart
  throttle_up : Bool
  prev_lag_values : List ℚ
  average_lag_value : ℚ
deriving DecidableEq, Repr

/-- The `Action::Ping` arm of `Player::update`: for every history snapshot,
look up the entity and its gravity center (`unwrap` — `none` models the
panic), recover the polar angle of the relative position, and fold the
derived lag value into the running average. -/
def pingFold (K : Kernel) (entity_id : ℕ) (angle : ℚ) :
    List (List (ℕ × GBody)) → DrainSt → Option DrainSt
  | [], st => some st
  | cache :: rest, st =>
      match assocFind cache entity_id with
      | none => none
      | some ent =>
          match assocFind cache ent.gravity_center with
          | none => none
          | some gc =>
              let sph := K.toSph (ent.coords - gc.coords)
              let lag := (angle - sph.theta) / ent.rotating_speed
              let prev := st.prev_lag_values ++ [lag]
              pingFold K entity_id angle rest
                { st with prev_lag_values := prev,
                          average_lag_value := prev.sum / (prev.length : ℚ) }

/-- The `try_recv` drain loop of `Player::update`, consuming the queued
actions in arrival order. A throttle-up `ShipState` records the normalized
direction; `Ping` updates the lag average; a `Login` action reaches the
`todo!()` arm, modelled as `none`. -/
def drainActions (K : Kernel) (history : List (List (ℕ × GBody))) :
    DrainSt → List SbAction → Option DrainSt
  | st, [] => some st
  | st, a :: rest =>
      match a with
      | SbAction.ShipState s =>
          drainActions K history
            (if s.throttle_up then
              { st with throttle_up := s.throttle_up,
                        direction := s.direction.scaleDiv (K.norm s.direction) }
            else st) rest
      | SbAction.Ping e ang =>
          match pingFold K e ang history st with
          | some st' => drainActions K history st' rest
          | none => none
      | SbAction.Login _ => none

/-- The env-chunking loop of `Player::update`: push each body snapshot, emit a
message whenever the batch reaches 50, with explicit loop state. -/
def chunkGo : List GBody → List StateBody → List (List StateBody) →
    List StateBody × List (List StateBody)
  | [], bodies, msgs => (bodies, msgs)
  | c :: rest, bodies, msgs =>
      let bodies' := bodies ++ [c.toStateBody]
      if bodies'.length == 50 then chunkGo rest [] (msgs ++ [bodies'])
      else chunkGo rest bodies' msgs

/-- The `Env` messages emitted for an area-of-interest result: the 50-sized
batches, plus the final nonempty remainder. -/
def envMessages (env : List GBody) : List Game :=
  let r := chunkGo env [] []
  (if r.1.isEmpty then r.2 else r.2 ++ [r.1]).map Game.EnvMsg

/-- `Player::update` (src/player.rs, lines 51-139): drain queued actions,
advance the position along the normalized heading when one is present, emit
the `Player` snapshot when a throttle-up action was consumed or no state was
ever sent, then emit the chunked `Env` snapshots. Returns the updated player
and the ordered list of emitted messages; `none` models a panicking path. -/
def GPlayer.update (K : Kernel) (p : GPlayer) (actions : List SbAction)
    (delta : ℚ) (env : List GBody) (history : List (List (ℕ × GBody))) :
    Option (GPlayer × List Game) :=
  match drainActions K history
      { direction := ⟨0, 0, 0⟩, throttle_up := false,
        prev_lag_values := p.prev_lag_values,
        average_lag_value := p.average_lag_value } actions with
  | none => none
  | some st =>
      let coords :=
        if K.norm st.direction > 0 then
          p.coords + ((st.direction.scaleDiv (K.norm st.direction)).scale
            100).scale delta
        else p.coords
      let playerMsgs :=
        if st.throttle_up || !p.first_state_sent then [Game.PlayerMsg coords]
        else []
      some ({ p with coords := coords, first_state_sent := true,
                     prev_lag_values := st.prev_lag_values,
                     average_lag_value := st.average_lag_value },
            playerMsgs ++ envMessages env)

/-- Whether the queue holds a `ShipState` action with `throttle_up` set. -/
def throttleSeen (actions : List SbAction) : Bool :=
  actions.any (fun a =>
    match a with
    | SbAction.ShipState s => s.throttle_up
    | _ => false)

/-- Concrete body and query for the C1 witness. -/
def c1Body : GBody :=
  { id := 1, coords := ⟨1, 0, 0⟩, rotating_speed := 0, gravity_center := 1,
    body_type := 1 }

/-- Witness for C1 at a concrete tree, center and radius. -/
theorem c1_aoi_within_radius_witness :
    Real.sqrt ((distSq c1Body.coords ⟨0, 0, 0⟩ : ℚ) : ℝ) ≤ ((2 : ℚ) : ℝ) :=
  c1_aoi_within_radius [c1Body] ⟨0, 0, 0⟩ 2 (by norm_num) c1Body
    (by simp [galactics_in_spherical_view, inBroadPhase, distSq, c1Body]; norm_num)

/-- The `Ping` arm mutates only the lag-tracking fields: the local `direction`
and `throttle_up` variables are untouched. -/
theorem pingFold_preserves (K : Kernel) (e : ℕ) (a : ℚ) :
    ∀ (hist : List (List (ℕ × GBody))) (st st' : DrainSt),
      pingFold K e a hist st = some st' →
      st'.direction = st.direction ∧ st'.throttle_up = st.throttle_up := by
  intro hist
  induction hist with
  | nil =>
      intro st st' h
      simp [pingFold] at h
      subst h
      exact ⟨rfl, rfl⟩
  | cons cache rest ih =>
      intro st st' h
      simp only [pingFold] at h
      split at h
      · simp at h
      · split at h
        · simp at h
        · simpa using ih _ _ h

/-- After a successful drain, the local `throttle_up` flag is set exactly when
some queued `ShipState` action had `throttle_up`. -/
theorem drain_throttle (K : Kernel) (hist : List (List (ℕ × GBody))) :
    ∀ (acts : List SbAction) (st st' : DrainSt),
      drainActions K hist st acts = some st' →
      st'.throttle_up = (st.throttle_up || throttleSeen acts) := by
  intro acts
  induction acts with
  | nil =>
      intro st st' h
      simp [drainActions] at h
      subst h
      simp [throttleSeen]
  | cons a rest ih =>
      intro st st' h
      cases a with
      | Login nick => simp [drainActions] at h
      | ShipState s =>
          simp only [drainActions] at h
          have hrec := ih _ _ h
          by_cases hs : s.throttle_up
          · simp [hs] at hrec
            simp [throttleSeen, hs, hrec]
          · simp [Bool.not_eq_true] at hs
            simp [hs] at hrec
            simp [throttleSeen, hs, hrec]
      | Ping e ang =>
          simp only [drainActions] at h
          cases hp : pingFold K e ang hist st with
          | none => rw [hp] at h; simp at h
          | some st1 =>
              rw [hp] at h
              have hpr := pingFold_preserves K e ang hist st st1 hp
              have hrec := ih _ _ h
              simp [throttleSeen, hrec, hpr.2]

/-- If no queued action throttles up, the drained local direction is the
initial one. -/
theorem drain_direction (K : Kernel) (hist : List (List (ℕ × GBody))) :
    ∀ (acts : List SbAction) (st st' : DrainSt),
      throttleSeen acts = false →
      drainActions K hist st acts = some st' →
      st'.direction = st.direction := by
  intro acts
  induction acts with
  | nil =>
      intro st st' _ h
      simp [drainActions] at h
      subst h
      rfl
  | cons a rest ih =>
      intro st st' hts h
      cases a with
      | Login nick => simp [drainActions] at h
      | ShipState s =>
          have hs : s.throttle_up = false := by
            by_contra hc
            simp [Bool.not_eq_false] at hc
            simp [throttleSeen, hc] at hts
          have hts' : throttleSeen rest = false := by
            simp [throttleSeen] at hts ⊢
            exact hts.2
          simp only [drainActions, hs] at h
          simpa using ih _ _ hts' h
      | Ping e ang =>
          have hts' : throttleSeen rest = false := by
            simp [throttleSeen] at hts ⊢
            exact hts
          simp only [drainActions] at h
          cases hp : pingFold K e ang hist st with
          | none => rw [hp] at h; simp at h
          | some st1 =>
              rw [hp] at h
              have hpr := pingFold_preserves K e ang hist st st1 hp
              rw [ih _ _ hts' h, hpr.1]

/-- No `Player` message ever appears among the env-chunk messages. -/
theorem envMessages_no_player (env : List GBody) (c : Cart) :
    Game.PlayerMsg c ∉ envMessages env := by
  intro h
  simp only [envMessages, List.mem_map] at h
  obtain ⟨bs, _, hbs⟩ := h
  exact Game.noConfusion hbs

/-- C3 (amended): a `Player` snapshot is emitted exactly when a throttle-up
`ShipState` action was consumed this tick or no state has ever been sent;
moreover an actual position change always comes with a `Player` snapshot.
The kernel hypothesis states that the external norm of the zero vector is
zero. -/
theorem c3_player_update_emission (K : Kernel) (p : GPlayer)
    (actions : List SbAction) (delta : ℚ) (env : List GBody)
    (history : List (List (ℕ × GBody))) (p' : GPlayer) (msgs : List Game)
    (hK : K.norm ⟨0, 0, 0⟩ = 0)
    (h : GPlayer.update K p actions delta env history = some (p', msgs)) :
    ((∃ c, Game.PlayerMsg c ∈ msgs) ↔
      (throttleSeen actions = true ∨ p.first_state_sent = false)) ∧
    (p'.coords ≠ p.coords → ∃ c, Game.PlayerMsg c ∈ msgs) := by
  simp only [GPlayer.update] at h
  cases hd : drainActions K history
      { direction := ⟨0, 0, 0⟩, throttle_up := false,
        prev_lag_values := p.prev_lag_values,
        average_lag_value := p.average_lag_value } actions with
  | none => rw [hd] at h; simp at h
  | some st =>
      rw [hd] at h
      simp only [Option.some_inj] at h
      have hth : st.throttle_up = throttleSeen actions := by
        simpa using drain_throttle K history actions _ st hd
      have hmsgs : msgs =
          (if st.throttle_up || !p.first_state_sent
            then [Game.PlayerMsg (if K.norm st.direction > 0 then
              p.coords + ((st.direction.scaleDiv (K.norm st.direction)).scale
                100).scale delta else p.coords)]
            else []) ++ envMessages env := congrArg Prod.snd h.symm
      constructor
      · constructor
        · rintro ⟨c, hc⟩
          rw [hmsgs] at hc
          rcases List.mem_append.mp hc with hc | hc
          · by_cases hcond : (st.throttle_up || !p.first_state_sent) = true
            · rcases Bool.or_eq_true_iff.mp hcond with h1 | h1
              · exact Or.inl (hth ▸ h1)
              · exact Or.inr (by simpa using h1)
            · simp [hcond] at hc
          · exact absurd hc (envMessages_no_player env c)
        · intro hcond
          have hcond' : (st.throttle_up || !p.first_state_sent) = true := by
            rcases hcond with h1 | h1
            · simp [hth, h1]
            · simp [h1]
          refine ⟨if K.norm st.direction > 0 then
              p.coords + ((st.direction.scaleDiv (K.norm st.direction)).scale
                100).scale delta else p.coords, ?_⟩
          rw [hmsgs, hcond']
          exact List.mem_append.mpr (Or.inl (List.mem_singleton.mpr rfl))
      · intro hmove
        have hp' : p'.coords = (if K.norm st.direction > 0 then
            p.coords + ((st.direction.scaleDiv (K.norm st.direction)).scale
              100).scale delta else p.coords) := by
          have hfst := congrArg Prod.fst h
          exact (congrArg GPlayer.coords hfst).symm
        by_cases hts : throttleSeen actions = true
        · have hcond' : (st.throttle_up || !p.first_state_sent) = true := by
            simp [hth, hts]
          refine ⟨if K.norm st.direction > 0 then
              p.coords + ((st.direction.scaleDiv (K.norm st.direction)).scale
                100).scale delta else p.coords, ?_⟩
          rw [hmsgs, hcond']
          exact List.mem_append.mpr (Or.inl (List.mem_singleton.mpr rfl))
        · exfalso
          have hts' : throttleSeen actions = false := by
            simpa using hts
          have hdir : st.direction = ⟨0, 0, 0⟩ :=
            drain_direction K history actions _ st hts' hd
          rw [hdir, hK] at hp'
          simp at hp'
          exact hmove hp'

/-- Concrete kernel for the player-update counterexamples and witnesses. -/
def cKernel : Kernel :=
  { toSph := fun c => ⟨c.x, c.y, c.z⟩, toCart := fun s => ⟨s.r, s.theta, s.phi⟩,
    pi := 3, isNormal := fun q => decide (q ≠ 0), norm := fun c => c.x + c.y + c.z }

/-- Concrete player whose first state was already sent. -/
def c3Player : GPlayer :=
  { id := 1, nickname := "bob", coords := ⟨2, 4, 6⟩, direction := ⟨0, 0, 0⟩,
    current_system := 0, first_state_sent := true, prev_lag_values := [],
    average_lag_value := 0 }

/-- C3 counterexample: with a throttle-up action and a zero time delta, the
player's position is unchanged this tick and a state was previously sent, yet
a `Player` snapshot is emitted — refuting the claim that a snapshot is
emitted only if the position actually changed or no state was ever sent. -/
theorem c3_counterexample :
    c3Player.first_state_sent = true ∧
    GPlayer.update cKernel c3Player [SbAction.ShipState ⟨true, ⟨1, 0, 0⟩⟩] 0 [] []
      = some (c3Player, [Game.PlayerMsg c3Player.coords]) := by
  constructor
  · rfl
  · simp [GPlayer.update, drainActions, envMessages, chunkGo, cKernel,
      Cart.scaleDiv, Cart.scale, c3Player, Cart.add_def]

/-- Witness for the amended C3 theorem at the counterexample input. -/
theorem c3_player_update_emission_witness :
    ((∃ c, Game.PlayerMsg c ∈ [Game.PlayerMsg c3Player.coords]) ↔
      (throttleSeen [SbAction.ShipState ⟨true, ⟨1, 0, 0⟩⟩] = true ∨
        c3Player.first_state_sent = false)) ∧
    (c3Player.coords ≠ c3Player.coords →
      ∃ c, Game.PlayerMsg c ∈ [Game.PlayerMsg c3Player.coords]) :=
  c3_player_update_emission cKernel c3Player
    [SbAction.ShipState ⟨true, ⟨1, 0, 0⟩⟩] 0 [] [] c3Player
    [Game.PlayerMsg c3Player.coords] (by simp [cKernel])
    (by simp [GPlayer.update, drainActions, envMessages, chunkGo, cKernel,
      Cart.scaleDiv, Cart.scale, c3Player, Cart.add_def])

/-- Extract the body list of an `Env` message. -/
def envBodies : Game → Option (List StateBody)
  | Game.EnvMsg bs => some bs
  | _ => none

/-- Loop invariant of the env-chunking loop: the emitted batches followed by
the pending batch hold exactly the already-consumed snapshots, every emitted
batch is nonempty with at most 50 entries, and the pending batch stays below
50. -/
theorem chunkGo_spec :
    ∀ (rest : List GBody) (bodies : List StateBody)
      (msgs : List (List StateBody)),
      bodies.length < 50 →
      (∀ m ∈ msgs, m.length ≤ 50 ∧ m ≠ []) →
      ((chunkGo rest bodies msgs).2.flatten ++ (chunkGo rest bodies msgs).1 =
          msgs.flatten ++ bodies ++ rest.map GBody.toStateBody) ∧
        (∀ m ∈ (chunkGo rest bodies msgs).2, m.length ≤ 50 ∧ m ≠ []) ∧
        (chunkGo rest bodies msgs).1.length < 50 := by
  intro rest
  induction rest with
  | nil =>
      intro bodies msgs hb hm
      simp [chunkGo]
      exact ⟨hm, hb⟩
  | cons c rest ih =>
      intro bodies msgs hb hm
      by_cases h50 : ((bodies ++ [c.toStateBody]).length == 50) = true
      · have := ih [] (msgs ++ [bodies ++ [c.toStateBody]]) (by norm_num)
          (by
            intro m hmem
            rcases List.mem_append.mp hmem with hmem | hmem
            · exact hm m hmem
            · have hmeq : m = bodies ++ [c.toStateBody] := by simpa using hmem
              subst hmeq
              refine ⟨Nat.le_of_eq (by simpa using h50), by simp⟩)
        simp only [chunkGo, h50, if_true] at this ⊢
        refine ⟨?_, this.2.1, this.2.2⟩
        rw [this.1]
        simp
      · have heq : ((bodies ++ [c.toStateBody]).length == 50) = false := by
          simpa using h50
        have hlt : (bodies ++ [c.toStateBody]).length < 50 := by
          have hne : (bodies ++ [c.toStateBody]).length ≠ 50 := by
            simpa using h50
          have : bodies.length + 1 ≤ 50 := hb
          simp only [List.length_append, List.length_singleton] at hne ⊢
          omega
        have := ih (bodies ++ [c.toStateBody]) msgs hlt hm
        simp only [chunkGo, heq, Bool.false_eq_true, if_false] at this ⊢
        refine ⟨?_, this.2.1, this.2.2⟩
        rw [this.1]
        simp

/-- A list of batches of at most 50 entries flattens to at most `50 * count`
entries. -/
theorem flatten_length_le :
    ∀ (L : List (List StateBody)), (∀ m ∈ L, m.length ≤ 50) →
      L.flatten.length ≤ 50 * L.length := by
  intro L
  induction L with
  | nil => intro _; simp
  | cons m rest ih =>
      intro hm
      have h1 : m.length ≤ 50 := hm m (List.mem_cons_self m rest)
      have h2 := ih (fun x hx => hm x (List.mem_cons_of_mem m hx))
      simp only [List.flatten_cons, List.length_append, List.length_cons]
      omega

/-- Messages produced by `filterMap` over a mapped `Env` list are the list
itself. -/
theorem filterMap_envBodies_map (L : List (List StateBody)) :
    (L.map Game.EnvMsg).filterMap envBodies = L := by
  induction L with
  | nil => rfl
  | cons m rest ih => simp [envBodies, ih]

/-- The batch lists of the emitted `Env` messages. -/
def envChunkLists (env : List GBody) : List (List StateBody) :=
  let r := chunkGo env [] []
  if r.1.isEmpty then r.2 else r.2 ++ [r.1]

/-- The env messages are exactly the batch lists wrapped in `Env`. -/
theorem envMessages_eq (env : List GBody) :
    envMessages env = (envChunkLists env).map Game.EnvMsg := rfl

/-- The emitted batches flatten to the converted area-of-interest result, and
each batch is nonempty with at most 50 entries. -/
theorem envChunkLists_spec (env : List GBody) :
    ((envChunkLists env).flatten = env.map GBody.toStateBody) ∧
    (∀ m ∈ envChunkLists env, m.length ≤ 50 ∧ m ≠ []) := by
  obtain ⟨hA, hB, hC⟩ := chunkGo_spec env [] [] (by norm_num) (by simp)
  unfold envChunkLists
  by_cases hrem : (chunkGo env [] []).1.isEmpty = true
  · have hrem' : (chunkGo env [] []).1 = [] := by
      simpa [List.isEmpty_iff] using hrem
    rw [hrem'] at hA
    rw [if_pos hrem]
    exact ⟨by simpa using hA, hB⟩
  · have hrem' : (chunkGo env [] []).1 ≠ [] := by
      simpa [List.isEmpty_iff] using hrem
    rw [if_neg hrem]
    constructor
    · rw [List.flatten_append]
      simpa using hA
    · intro m hm
      rcases List.mem_append.mp hm with hm | hm
      · exact hB m hm
      · have hmeq : m = (chunkGo env [] []).1 := by simpa using hm
        subst hmeq
        exact ⟨Nat.le_of_lt hC, hrem'⟩

/-- C4 (amended): the emitted `Env` messages carry exactly the area-of-interest
result, in order, each message nonempty with at most 50 entries; at least one
`Env` message is emitted whenever the result is nonempty, and more than one
when it exceeds 50 bodies. (No `Env` message at all is emitted for an empty
result.) -/
theorem c4_env_update (K : Kernel) (p : GPlayer) (actions : List SbAction)
    (delta : ℚ) (env : List GBody) (history : List (List (ℕ × GBody)))
    (p' : GPlayer) (msgs : List Game)
    (h : GPlayer.update K p actions delta env history = some (p', msgs)) :
    ((msgs.filterMap envBodies).flatten = env.map GBody.toStateBody) ∧
    (∀ m ∈ msgs.filterMap envBodies, m.length ≤ 50 ∧ m ≠ []) ∧
    (env ≠ [] → 1 ≤ (msgs.filterMap envBodies).length) ∧
    (50 < env.length → 2 ≤ (msgs.filterMap envBodies).length) := by
  simp only [GPlayer.update] at h
  cases hd : drainActions K history
      { direction := ⟨0, 0, 0⟩, throttle_up := false,
        prev_lag_values := p.prev_lag_values,
        average_lag_value := p.average_lag_value } actions with
  | none => rw [hd] at h; simp at h
  | some st =>
      rw [hd] at h
      simp only [Option.some_inj] at h
      have h2 := congrArg Prod.snd h.symm
      simp only at h2
      rw [h2]
      have hleft : List.filterMap envBodies
          (if (st.throttle_up || !p.first_state_sent) = true
            then [Game.PlayerMsg (if K.norm st.direction > 0 then
              p.coords + ((st.direction.scaleDiv (K.norm st.direction)).scale
                100).scale delta else p.coords)]
            else []) = [] := by
        split <;> simp [envBodies]
      rw [List.filterMap_append, hleft, List.nil_append, envMessages_eq,
        filterMap_envBodies_map]
      obtain ⟨hflat, hsize⟩ := envChunkLists_spec env
      refine ⟨hflat, hsize, ?_, ?_⟩
      · intro hne
        have hL : envChunkLists env ≠ [] := by
          intro hnil
          rw [hnil] at hflat
          exact hne (List.map_eq_nil_iff.mp hflat.symm)
        exact List.length_pos.mpr hL
      · intro h50
        have hlen := flatten_length_le (envChunkLists env)
          (fun m hm => (hsize m hm).1)
        have hcnt : env.length = (envChunkLists env).flatten.length := by
          rw [hflat]; simp
        omega

/-- C4 counterexample: a call of `Player::update` with an empty
area-of-interest result emits no message at all — in particular no `Env`
snapshot — refuting the claim that an `EnvUpdate` snapshot is always
emitted. -/
theorem c4_counterexample :
    GPlayer.update cKernel c3Player [] 1 [] [] = some (c3Player, []) := by
  simp [GPlayer.update, drainActions, envMessages, envChunkLists, chunkGo,
    cKernel, c3Player]

/-- Witness for the amended C4 theorem at a concrete two-body result. -/
theorem c4_env_update_witness :
    ((([Game.EnvMsg [c1Body.toStateBody,
        c1Body.toStateBody]]).filterMap envBodies).flatten =
      [c1Body, c1Body].map GBody.toStateBody) ∧
    (∀ m ∈ ([Game.EnvMsg [c1Body.toStateBody,
        c1Body.toStateBody]]).filterMap envBodies,
      m.length ≤ 50 ∧ m ≠ []) ∧
    ([c1Body, c1Body] ≠ ([] : List GBody) →
      1 ≤ (([Game.EnvMsg [c1Body.toStateBody,
        c1Body.toStateBody]]).filterMap envBodies).length) ∧
    (50 < ([c1Body, c1Body] : List GBody).length →
      2 ≤ (([Game.EnvMsg [c1Body.toStateBody,
        c1Body.toStateBody]]).filterMap envBodies).length) :=
  c4_env_update cKernel c3Player [] 1 [c1Body, c1Body] [] c3Player
    [Game.EnvMsg [c1Body.toStateBody, c1Body.toStateBody]]
    (by simp [GPlayer.update, drainActions, envMessages, envChunkLists,
      chunkGo, cKernel, c3Player])

/-- WebSocket frames seen by the session (`tungstenite::Message`). -/
inductive WsMessage
  | Text (s : String)
  | Binary (bytes : List ℕ)
  | MPing
  | MPong
  | MClose
deriving DecidableEq, Repr

/-- Observable side effects of the session handlers: messages written to the
transport, closing of the socket, `Instance::leave`, and actions forwarded to
the instance's inbound channel. -/
inductive SvcEffect
  | SendAuth (success : Bool) (message : String)
  | SendGame (g : Game)
  | SendPong
  | CloseWs
  | Leave
  | ForwardAction (a : SbAction)
deriving DecidableEq, Repr

/-- `Service::handle_message_for_auth` (src/service.rs, lines 46-111). The
JSON parser and `Instance::authenticate` are passed in abstractly (`parse`
returning `none` models unparseable JSON), as is the `Display` formatting of
errors. Returns the function's `Result` (the assigned player id on success)
and the ordered transport effects. A send attempt is recorded as an effect
whether or not the transport accepts it (its failure is only logged). -/
def handle_message_for_auth (parse : String → Option SbAction)
    (authFn : String → Except SbError ℕ) (fmt : SbError → String)
    (msg : WsMessage) : Except SbError ℕ × List SvcEffect :=
  match msg with
  | WsMessage.Text s =>
      match parse s with
      | none => (Except.error SbError.InvalidJson, [])
      | some (SbAction.Login nick) =>
          match authFn nick with
          | Except.error e =>
              (Except.error (SbError.AuthenticationError (fmt e)), [])
          | Except.ok i =>
              (Except.ok i, [SvcEffect.SendAuth true (toString i)])
      | some _ =>
          (Except.error SbError.NotALoginAction, [SvcEffect.CloseWs])
  | WsMessage.MPing => (Except.error SbError.Retry, [SvcEffect.SendPong])
  | _ => (Except.error SbError.NotTextMessage, [SvcEffect.CloseWs])

/-- One wake-up of the gameplay `select!` loop of
`Service::handle_message_for_gameplay` (src/service.rs, lines 113-172):
either an outbound state message became ready or an inbound transport frame
arrived (`none` models a transport read error). -/
inductive GpEvent
  | StateMsg (g : Game)
  | WsFrame (m : Option WsMessage)
deriving DecidableEq, Repr

/-- Whether the gameplay loop keeps running after the event or returns. -/
inductive GpOutcome
  | Continue
  | Stop
deriving DecidableEq, Repr

/-- One iteration of `Service::handle_message_for_gameplay`: the effects it
performs and whether the loop continues. `sendFails` abstracts the transport
write result for the outbound state message. -/
def handle_message_for_gameplay (parse : String → Option SbAction)
    (sendFails : Bool) (ev : GpEvent) : List SvcEffect × GpOutcome :=
  match ev with
  | GpEvent.StateMsg g =>
      if sendFails then
        ([SvcEffect.SendGame g, SvcEffect.Leave, SvcEffect.CloseWs],
          GpOutcome.Stop)
      else ([SvcEffect.SendGame g], GpOutcome.Continue)
  | GpEvent.WsFrame none => ([SvcEffect.Leave], GpOutcome.Stop)
  | GpEvent.WsFrame (some m) =>
      match m with
      | WsMessage.Text s =>
          match parse s with
          | none => ([], GpOutcome.Stop)
          | some a => ([SvcEffect.ForwardAction a], GpOutcome.Continue)
      | WsMessage.MPing => ([SvcEffect.SendPong], GpOutcome.Continue)
      | WsMessage.MClose => ([SvcEffect.Leave], GpOutcome.Stop)
      | _ => ([SvcEffect.Leave], GpOutcome.Stop)

/-- C5 counterexample: in the unauthenticated state, a text frame with
unparseable JSON and a `Login` whose authentication fails both produce an
empty effect list — no authentication-result message (`success=false`) is
ever sent, refuting the claim that such a send is attempted before
closing. -/
theorem c5_counterexample :
    handle_message_for_auth (fun _ => none)
        (fun _ => Except.error SbError.InvalidNickname) (fun _ => "reason")
        (WsMessage.Text "not json") =
      (Except.error SbError.InvalidJson, []) ∧
    handle_message_for_auth (fun _ => some (SbAction.Login "bob"))
        (fun _ => Except.error SbError.InvalidNickname) (fun _ => "reason")
        (WsMessage.Text "login") =
      (Except.error (SbError.AuthenticationError "reason"), []) := by
  constructor <;> rfl

/-- C5 (amended): on a parse failure or a failed authentication the handler
performs no transport send at all — it returns `InvalidJson` respectively
`AuthenticationError` with an empty effect list, and the connection is then
dropped by the caller without an authentication-result message. -/
theorem c5_auth_failure_sends_nothing (parse : String → Option SbAction)
    (authFn : String → Except SbError ℕ) (fmt : SbError → String)
    (s : String) :
    (parse s = none →
      handle_message_for_auth parse authFn fmt (WsMessage.Text s) =
        (Except.error SbError.InvalidJson, [])) ∧
    (∀ nick e, parse s = some (SbAction.Login nick) →
      authFn nick = Except.error e →
      handle_message_for_auth parse authFn fmt (WsMessage.Text s) =
        (Except.error (SbError.AuthenticationError (fmt e)), [])) := by
  constructor
  · intro hp
    simp [handle_message_for_auth, hp]
  · intro nick e hp ha
    simp [handle_message_for_auth, hp, ha]

/-- Witness for the amended C5 theorem at concrete inputs. -/
theorem c5_auth_failure_sends_nothing_witness :
    handle_message_for_auth (fun _ => none)
        (fun _ => Except.error SbError.InvalidNickname) (fun _ => "reason")
        (WsMessage.Text "garbage") =
      (Except.error SbError.InvalidJson, []) ∧
    handle_message_for_auth (fun _ => some (SbAction.Login "eve"))
        (fun _ => Except.error SbError.PlayerAlreadyAuthenticated)
        (fun _ => "already") (WsMessage.Text "login") =
      (Except.error (SbError.AuthenticationError "already"), []) :=
  ⟨(c5_auth_failure_sends_nothing (fun _ => none)
      (fun _ => Except.error SbError.InvalidNickname) (fun _ => "reason")
      "garbage").1 rfl,
   (c5_auth_failure_sends_nothing (fun _ => some (SbAction.Login "eve"))
      (fun _ => Except.error SbError.PlayerAlreadyAuthenticated)
      (fun _ => "already") "login").2 "eve"
      SbError.PlayerAlreadyAuthenticated rfl rfl⟩

/-- C6 counterexample: an inbound text frame with unparseable JSON makes the
gameplay loop return (`Stop`), so the session does not continue processing
subsequent frames — refuting the claim that the session remains in the
gameplay state. (No `Leave` effect is performed either.) -/
theorem c6_counterexample :
    handle_message_for_gameplay (fun _ => none) false
        (GpEvent.WsFrame (some (WsMessage.Text "not json"))) =
      ([], GpOutcome.Stop) ∧
    GpOutcome.Stop ≠ GpOutcome.Continue := by
  exact ⟨rfl, by simp⟩

/-- C6 (amended): an inbound text frame whose JSON does not parse is logged
and dropped without any effect — in particular `Instance::leave` is not
called, so the player stays resident — but the gameplay loop returns,
terminating the session's processing of subsequent frames. -/
theorem c6_bad_json_stops_without_leave (parse : String → Option SbAction)
    (sendFails : Bool) (s : String) (hp : parse s = none) :
    handle_message_for_gameplay parse sendFails
        (GpEvent.WsFrame (some (WsMessage.Text s))) =
      ([], GpOutcome.Stop) := by
  simp [handle_message_for_gameplay, hp]

/-- Witness for the amended C6 theorem at a concrete input. -/
theorem c6_bad_json_stops_without_leave_witness :
    handle_message_for_gameplay (fun _ => none) true
        (GpEvent.WsFrame (some (WsMessage.Text "oops"))) =
      ([], GpOutcome.Stop) :=
  c6_bad_json_stops_without_leave (fun _ => none) true "oops" rfl

/-- Rust truncation toward zero of a rational. -/
def qtrunc (q : ℚ) : ℤ := if 0 ≤ q then Int.floor q else Int.ceil q

/-- The Rust `%` operator on `f64`: remainder with the sign of the dividend,
`x - y * trunc(x / y)`, modelled exactly on `ℚ`. -/
def ratRem (x y : ℚ) : ℚ := x - y * (qtrunc (x / y) : ℚ)

/-- The descendant-translation loop inside `Galaxy::update` (src/galaxy.rs,
lines 87-97): a stack of ids (head is the top); for the popped id, every
still-unprocessed body orbiting it is translated by the same delta and its id
is pushed. The source loop diverges on a cyclic gravity graph, so the model
carries explicit fuel; the theorems hold for every fuel. -/
def walk (delta_car : Cart) : ℕ → List ℕ → List GBody → List GBody
  | 0, _, cs => cs
  | _ + 1, [], cs => cs
  | fuel + 1, i :: ids, cs =>
      let cs' := cs.map (fun g =>
        if g.gravity_center == i then { g with coords := g.coords + delta_car }
        else g)
      let pushed := (cs.filter (fun g => g.gravity_center == i)).map
        (fun g => g.id)
      walk delta_car fuel (pushed.reverse ++ ids) cs'

/-- The per-body step of `Galaxy::update` (src/galaxy.rs, lines 60-101): look
the body's gravity center up among the still-unprocessed bodies; if found,
derive the orbital delta in spherical coordinates (azimuth advanced by
`rotating_speed * delta`, wrapped by the half-circle remainder `% PI`),
discard it unless all three axes are normal, otherwise translate the body and
walk the same delta through its descendants. -/
def processBody (K : Kernel) (delta : ℚ) (fuel : ℕ) (celestial : GBody)
    (rest : List GBody) : GBody × List GBody :=
  match rest.find? (fun g => g.id == celestial.gravity_center) with
  | none => (celestial, rest)
  | some gravity_center =>
      let local_coordinates_car := celestial.coords - gravity_center.coords
      let local_coordinates_sph := K.toSph local_coordinates_car
      let new_coordinates_sph :=
        { local_coordinates_sph with
          phi := ratRem (local_coordinates_sph.phi +
            celestial.rotating_speed * delta) K.pi }
      let delta_car := K.toCart new_coordinates_sph -
        K.toCart local_coordinates_sph
      if !(K.isNormal delta_car.x) || !(K.isNormal delta_car.y) ||
          !(K.isNormal delta_car.z) then
        (celestial, rest)
      else
        let c' := { celestial with coords := celestial.coords + delta_car }
        (c', walk delta_car fuel [c'.id] rest)

/-- The walk only rewrites coordinates, so it preserves the list length. -/
theorem walk_length (d : Cart) :
    ∀ (fuel : ℕ) (ids : List ℕ) (cs : List GBody),
      (walk d fuel ids cs).length = cs.length := by
  intro fuel
  induction fuel with
  | zero => intro ids cs; rfl
  | succ n ih =>
      intro ids cs
      cases ids with
      | nil => rfl
      | cons i ids => rw [walk, ih]; simp

/-- The per-body step preserves the length of the working list. -/
theorem processBody_length (K : Kernel) (delta : ℚ) (fuel : ℕ)
    (c : GBody) (rest : List GBody) :
    (processBody K delta fuel c rest).2.length = rest.length := by
  unfold processBody
  cases rest.find? (fun g => g.id == c.gravity_center) with
  | none => rfl
  | some gc =>
      simp only
      split
      · rfl
      · exact walk_length _ _ _ _

/-- The main drain-and-rebuild loop of `Galaxy::update` (src/galaxy.rs, lines
56-102): bodies are popped from the end of the working list (modelled by
passing the reversed list, head = next pop); each processed body is inserted
into the rebuilt index (`acc`, in insertion order). The shadow `old_rtree`
bookkeeping of the source has no observable effect (its only reader is
commented out) and is omitted. -/
def updLoop (K : Kernel) (delta : ℚ) (fuel : ℕ) :
    List GBody → List GBody → List GBody
  | [], acc => acc
  | c :: restRev, acc =>
      updLoop K delta fuel
        ((processBody K delta fuel c restRev.reverse).2).reverse
        (acc ++ [(processBody K delta fuel c restRev.reverse).1])
termination_by l _ => l.length
decreasing_by
  simp only [List.length_reverse, processBody_length, List.length_cons]
  omega

/-- `Galaxy::update` (src/galaxy.rs, lines 46-106): scale the delta by 10,
return unchanged when fewer than 2 bodies exist, otherwise drain the index
and process every body exactly once from the end of the drained list,
rebuilding the index from the processed bodies. -/
def galaxy_update (K : Kernel) (fuel : ℕ) (delta0 : ℚ)
    (celestials : List GBody) : List GBody :=
  let delta := delta0 * 10
  if celestials.length < 2 then celestials
  else updLoop K delta fuel celestials.reverse []

/-- All fields of a body except its coordinates. -/
def GBody.strip (b : GBody) : ℕ × ℕ × ℚ × ℕ :=
  (b.id, b.body_type, b.rotating_speed, b.gravity_center)

/-- Rewriting only the coordinates leaves the stripped fields unchanged. -/
theorem strip_setCoords (g : GBody) (c : Cart) :
    GBody.strip { g with coords := c } = GBody.strip g := rfl

/-- The walk preserves every field except coordinates, in order. -/
theorem walk_strip (d : Cart) :
    ∀ (fuel : ℕ) (ids : List ℕ) (cs : List GBody),
      (walk d fuel ids cs).map GBody.strip = cs.map GBody.strip := by
  intro fuel
  induction fuel with
  | zero => intro ids cs; rfl
  | succ n ih =>
      intro ids cs
      cases ids with
      | nil => rfl
      | cons i ids =>
          rw [walk, ih, List.map_map]
          refine List.map_congr_left ?_
          intro g _
          simp only [Function.comp_apply]
          split <;> rfl

/-- The per-body step preserves every field except coordinates: the processed
body keeps its stripped fields and the working list keeps its stripped fields
in order. -/
theorem processBody_strip (K : Kernel) (delta : ℚ) (fuel : ℕ)
    (c : GBody) (rest : List GBody) :
    GBody.strip (processBody K delta fuel c rest).1 = GBody.strip c ∧
    ((processBody K delta fuel c rest).2).map GBody.strip =
      rest.map GBody.strip := by
  unfold processBody
  cases rest.find? (fun g => g.id == c.gravity_center) with
  | none => exact ⟨rfl, rfl⟩
  | some gc =>
      simp only
      split
      · exact ⟨rfl, rfl⟩
      · exact ⟨rfl, walk_strip _ _ _ _⟩

/-- The main loop emits the processed bodies in reverse drain order with
their stripped fields intact. -/
theorem updLoop_strip (K : Kernel) (delta : ℚ) (fuel : ℕ) :
    ∀ (n : ℕ) (l acc : List GBody), l.length = n →
      (updLoop K delta fuel l acc).map GBody.strip =
        acc.map GBody.strip ++ l.map GBody.strip := by
  intro n
  induction n using Nat.strong_induction_on with
  | _ n ih =>
      intro l acc hl
      cases l with
      | nil => simp [updLoop]
      | cons c restRev =>
          rw [updLoop]
          have hlen : ((processBody K delta fuel c restRev.reverse).2).reverse.length
              < n := by
            have hp := processBody_length K delta fuel c restRev.reverse
            simp only [List.length_cons] at hl
            simp only [List.length_reverse] at hp ⊢
            omega
          rw [ih _ hlen _ _ rfl]
          have h2 := (processBody_strip K delta fuel c restRev.reverse).2
          have h1 := (processBody_strip K delta fuel c restRev.reverse).1
          rw [List.map_append, List.map_reverse, h2, List.map_reverse,
            List.reverse_reverse]
          simp [h1]

/-- The rebuilt body list of `Galaxy::update` carries the stripped fields of
the input either unchanged (early return) or in reverse drain order. -/
theorem galaxy_update_strip (K : Kernel) (fuel : ℕ) (delta0 : ℚ)
    (cs : List GBody) :
    (galaxy_update K fuel delta0 cs).map GBody.strip = cs.map GBody.strip ∨
    (galaxy_update K fuel delta0 cs).map GBody.strip =
      (cs.map GBody.strip).reverse := by
  unfold galaxy_update
  by_cases hlt : cs.length < 2
  · left
    rw [if_pos hlt]
  · right
    rw [if_neg hlt]
    rw [updLoop_strip K _ fuel cs.reverse.length cs.reverse [] rfl]
    simp [List.map_reverse]

/-- C9: `Galaxy::update` preserves the multiset of body ids — no body is
created, dropped or duplicated by the drain-and-rebuild (including the early
return below 2 bodies) — and every field other than the coordinates (id,
body type, rotating speed, gravity center) is unchanged, for every kernel,
every fuel and every delta. -/
theorem c9_update_preserves_bodies (K : Kernel) (fuel : ℕ) (delta0 : ℚ)
    (cs : List GBody) :
    ((galaxy_update K fuel delta0 cs).map GBody.strip).Perm
        (cs.map GBody.strip) ∧
    ((galaxy_update K fuel delta0 cs).map GBody.id).Perm
        (cs.map GBody.id) := by
  have hstrip := galaxy_update_strip K fuel delta0 cs
  have hperm : ((galaxy_update K fuel delta0 cs).map GBody.strip).Perm
      (cs.map GBody.strip) := by
    rcases hstrip with h | h
    · rw [h]
    · rw [h]
      exact (cs.map GBody.strip).reverse_perm
  refine ⟨hperm, ?_⟩
  have hid : ∀ l : List GBody,
      l.map GBody.id = (l.map GBody.strip).map Prod.fst := by
    intro l
    rw [List.map_map]
    rfl
  rw [hid, hid]
  exact hperm.map Prod.fst

/-- Equal stripped fields give equal id lists. -/
theorem map_id_of_map_strip {l1 l2 : List GBody}
    (h : l1.map GBody.strip = l2.map GBody.strip) :
    l1.map GBody.id = l2.map GBody.id := by
  have h2 := congrArg (List.map Prod.fst) h
  rw [List.map_map, List.map_map] at h2
  exact h2

/-- In a list with pairwise-distinct ids, a member is the unique holder of its
id. -/
theorem nodup_unique_id (s : GBody) :
    ∀ (cs : List GBody), (cs.map GBody.id).Nodup → s ∈ cs →
      ∀ g ∈ cs, g.id = s.id → g = s := by
  intro cs
  induction cs with
  | nil => intro _ h; cases h
  | cons a t ih =>
      intro hnd hs g hg hid
      simp only [List.map_cons, List.nodup_cons] at hnd
      rcases List.mem_cons.mp hs with hsa | hst
      · rcases List.mem_cons.mp hg with hga | hgt
        · rw [hga, hsa]
        · exfalso
          apply hnd.1
          rw [hsa] at hid
          rw [← hid]
          exact List.mem_map_of_mem GBody.id hgt
      · rcases List.mem_cons.mp hg with hga | hgt
        · exfalso
          apply hnd.1
          rw [hga] at hid
          rw [hid]
          exact List.mem_map_of_mem GBody.id hst
        · exact ih hnd.2 hst g hgt hid

/-- A root star (gravity center pointing at itself) is never touched by the
descendant walk: it stays in the list unchanged, and it remains the unique
holder of its id, as long as its own id is not on the stack. -/
theorem walk_star (d : Cart) (s : GBody) (hgc : s.gravity_center = s.id) :
    ∀ (fuel : ℕ) (ids : List ℕ) (cs : List GBody),
      (∀ i ∈ ids, i ≠ s.id) →
      (∀ g ∈ cs, g.id = s.id → g = s) →
      ((s ∈ cs → s ∈ walk d fuel ids cs) ∧
        (∀ g ∈ walk d fuel ids cs, g.id = s.id → g = s)) := by
  intro fuel
  induction fuel with
  | zero => intro ids cs _ hu; exact ⟨fun h => h, hu⟩
  | succ n ih =>
      intro ids cs hids hu
      cases ids with
      | nil => exact ⟨fun h => h, hu⟩
      | cons i ids =>
          rw [walk]
          have hine : i ≠ s.id := hids i (List.mem_cons_self _ _)
          have hbeq : (s.gravity_center == i) = false := by
            rw [hgc]
            exact beq_eq_false_iff_ne.mpr (Ne.symm hine)
          have hfs : (if (s.gravity_center == i) = true then
              { s with coords := s.coords + d } else s) = s := by
            rw [hbeq]
            simp
          have hu' : ∀ g ∈ cs.map (fun g => if g.gravity_center == i then
              { g with coords := g.coords + d } else g),
              g.id = s.id → g = s := by
            intro g' hg' hid'
            obtain ⟨g, hgmem, hgeq⟩ := List.mem_map.mp hg'
            have hgid : g.id = s.id := by
              rw [← hid', ← hgeq]
              by_cases hcond : (g.gravity_center == i) = true <;> simp [hcond]
            have hgs : g = s := hu g hgmem hgid
            rw [← hgeq, hgs]
            exact hfs
          have hpush : ∀ j ∈ ((cs.filter (fun g => g.gravity_center == i)).map
              (fun g => g.id)).reverse ++ ids, j ≠ s.id := by
            intro j hj
            rcases List.mem_append.mp hj with hj | hj
            · rw [List.mem_reverse] at hj
              obtain ⟨g, hgmem, hgid⟩ := List.mem_map.mp hj
              have hgf := List.mem_filter.mp hgmem
              intro hjs
              have hgid2 : g.id = s.id := by
                rw [← hjs]
                exact hgid
              have hgs : g = s := hu g hgf.1 hgid2
              have hcond := hgf.2
              rw [hgs, hgc] at hcond
              have hcond2 : s.id = i := by simpa using hcond
              exact hine hcond2.symm
            · exact hids j (List.mem_cons_of_mem _ hj)
          have hrec := ih (((cs.filter (fun g => g.gravity_center == i)).map
              (fun g => g.id)).reverse ++ ids)
            (cs.map (fun g => if g.gravity_center == i then
              { g with coords := g.coords + d } else g)) hpush hu'
          refine ⟨?_, hrec.2⟩
          intro hmem
          apply hrec.1
          have hin := List.mem_map_of_mem (fun g =>
            if g.gravity_center == i then { g with coords := g.coords + d }
            else g) hmem
          simpa only [hfs] using hin

/-- The per-body step of another body never touches a root star in the
working list, provided the processed body does not share the star's id. -/
theorem processBody_star (K : Kernel) (delta : ℚ) (fuel : ℕ) (s c : GBody)
    (hgc : s.gravity_center = s.id) (hcid : c.id ≠ s.id)
    (rest : List GBody) (hu : ∀ g ∈ rest, g.id = s.id → g = s) :
    ((s ∈ rest → s ∈ (processBody K delta fuel c rest).2) ∧
      (∀ g ∈ (processBody K delta fuel c rest).2, g.id = s.id → g = s)) := by
  unfold processBody
  cases rest.find? (fun g => g.id == c.gravity_center) with
  | none => exact ⟨fun h => h, hu⟩
  | some gc =>
      simp only
      split
      · exact ⟨fun h => h, hu⟩
      · refine walk_star _ s hgc fuel [c.id] rest ?_ hu
        intro j hj
        rw [List.mem_singleton.mp hj]
        exact hcid

/-- Through the whole drain loop, a root star with a unique id is carried into
the rebuilt list unchanged: when popped, its gravity-center lookup over the
remaining working list finds nothing; while others are processed, the
descendant walk never reaches it. -/
theorem updLoop_star (K : Kernel) (delta : ℚ) (fuel : ℕ) (s : GBody)
    (hgc : s.gravity_center = s.id) :
    ∀ (n : ℕ) (l acc : List GBody), l.length = n →
      (l.map GBody.id).Nodup →
      (∀ g ∈ l, g.id = s.id → g = s) →
      (s ∈ l ∨ s ∈ acc) →
      s ∈ updLoop K delta fuel l acc := by
  intro n
  induction n using Nat.strong_induction_on with
  | _ n ih =>
      intro l acc hl hnd hu hmem
      cases l with
      | nil =>
          rw [updLoop]
          rcases hmem with h | h
          · cases h
          · exact h
      | cons c restRev =>
          rw [updLoop]
          simp only [List.length_cons] at hl
          simp only [List.map_cons, List.nodup_cons] at hnd
          by_cases hcs : c = s
          · subst hcs
            have hfind : (restRev.reverse).find?
                (fun g => g.id == c.gravity_center) = none := by
              rw [List.find?_eq_none]
              intro g hg
              have hgmem : g ∈ restRev := List.mem_reverse.mp hg
              simp only [Bool.not_eq_true, beq_eq_false_iff_ne]
              intro hgid
              rw [hgc] at hgid
              have hgs : g = c := hu g (List.mem_cons_of_mem _ hgmem) hgid
              apply hnd.1
              rw [← hgid]
              exact List.mem_map_of_mem GBody.id hgmem
            have hpb : processBody K delta fuel c restRev.reverse =
                (c, restRev.reverse) := by
              unfold processBody
              rw [hfind]
            rw [hpb]
            simp only [List.reverse_reverse]
            exact ih restRev.length (by omega) restRev (acc ++ [c]) rfl hnd.2
              (fun g hg hid => hu g (List.mem_cons_of_mem _ hg) hid)
              (Or.inr (List.mem_append.mpr (Or.inr (List.mem_singleton.mpr
                rfl))))
          · have hcid : c.id ≠ s.id := by
              intro h
              exact hcs (hu c (List.mem_cons_self _ _) h)
            have hu_rest : ∀ g ∈ restRev.reverse, g.id = s.id → g = s := by
              intro g hg hid
              exact hu g (List.mem_cons_of_mem _ (List.mem_reverse.mp hg)) hid
            have hps := processBody_star K delta fuel s c hgc hcid
              restRev.reverse hu_rest
            have hids_eq : ((processBody K delta fuel c restRev.reverse).2).map
                GBody.id = restRev.reverse.map GBody.id :=
              map_id_of_map_strip
                (processBody_strip K delta fuel c restRev.reverse).2
            have hnd' : ((((processBody K delta fuel c
                restRev.reverse).2).reverse).map GBody.id).Nodup := by
              rw [List.map_reverse, hids_eq]
              rw [List.map_reverse, List.reverse_reverse]
              exact hnd.2
            have hu' : ∀ g ∈ ((processBody K delta fuel c
                restRev.reverse).2).reverse, g.id = s.id → g = s := by
              intro g hg hid
              exact hps.2 g (List.mem_reverse.mp hg) hid
            have hlen' : (((processBody K delta fuel c
                restRev.reverse).2).reverse).length = restRev.length := by
              rw [List.length_reverse, processBody_length, List.length_reverse]
            apply ih restRev.length (by omega) _ _ hlen' hnd' hu'
            rcases hmem with hml | hma
            · rcases List.mem_cons.mp hml with h | h
              · exact absurd h.symm hcs
              · refine Or.inl ?_
                rw [List.mem_reverse]
                exact hps.1 (List.mem_reverse.mpr h)
            · exact Or.inr (List.mem_append.mpr (Or.inl hma))

/-- C10: for pairwise-distinct body ids, `Galaxy::update` never changes a root
star (a body whose gravity center is its own id): the star appears in the
rebuilt list with its original record — coordinates included — and it is the
only body carrying its id there. -/
theorem c10_root_star_fixed (K : Kernel) (fuel : ℕ) (delta0 : ℚ)
    (cs : List GBody) (hnd : (cs.map GBody.id).Nodup) (s : GBody)
    (hs : s ∈ cs) (hgc : s.gravity_center = s.id) :
    s ∈ galaxy_update K fuel delta0 cs ∧
    ∀ g ∈ galaxy_update K fuel delta0 cs, g.id = s.id → g = s := by
  have hmem : s ∈ galaxy_update K fuel delta0 cs := by
    unfold galaxy_update
    by_cases hlt : cs.length < 2
    · rw [if_pos hlt]
      exact hs
    · rw [if_neg hlt]
      apply updLoop_star K _ fuel s hgc cs.reverse.length cs.reverse [] rfl
      · rw [List.map_reverse]
        exact List.nodup_reverse.mpr hnd
      · intro g hg hid
        exact nodup_unique_id s cs hnd hs g (List.mem_reverse.mp hg) hid
      · exact Or.inl (List.mem_reverse.mpr hs)
  have houtnd : ((galaxy_update K fuel delta0 cs).map GBody.id).Nodup := by
    rcases galaxy_update_strip K fuel delta0 cs with h | h
    · rw [map_id_of_map_strip h]
      exact hnd
    · have h' : (galaxy_update K fuel delta0 cs).map GBody.strip =
          (cs.reverse).map GBody.strip := by
        rw [h, List.map_reverse]
      rw [map_id_of_map_strip h', List.map_reverse]
      exact List.nodup_reverse.mpr hnd
  exact ⟨hmem, nodup_unique_id s _ houtnd hmem⟩

/-- Concrete orbiting planet for the C10 and C7 witnesses. -/
def c10Planet : GBody :=
  { id := 2, coords := ⟨5, 0, 0⟩, rotating_speed := 1, gravity_center := 1,
    body_type := 2 }

/-- Witness for C10 at a concrete two-body system (a root star and one
planet). -/
theorem c10_root_star_fixed_witness :
    c1Body ∈ galaxy_update cKernel 3 1 [c10Planet, c1Body] ∧
    ∀ g ∈ galaxy_update cKernel 3 1 [c10Planet, c1Body],
      g.id = c1Body.id → g = c1Body :=
  c10_root_star_fixed cKernel 3 1 [c10Planet, c1Body]
    (by simp [c10Planet, c1Body]) c1Body (by simp) rfl

/-- Modelled from the spec's words for C7: convert the position relative to
the center to spherical coordinates, increment the azimuthal angle by the
rotating speed times the scaled delta, wrap it with the half-circle modulus,
convert back and subtract; discard the delta unless all axes are normal,
otherwise add it to the position. -/
def orbitalStepSpec (K : Kernel) (delta_scaled : ℚ) (b center : GBody) :
    Cart :=
  let rel := b.coords - center.coords
  let sph := K.toSph rel
  let wrapped :=
    { sph with
      phi := ratRem (sph.phi + b.rotating_speed * delta_scaled) K.pi }
  let d := K.toCart wrapped - K.toCart sph
  if K.isNormal d.x && K.isNormal d.y && K.isNormal d.z then b.coords + d
  else b.coords

/-- For a nonnegative quotient the Rust remainder is the scaled fractional
part. -/
theorem ratRem_eq_fract (x p : ℚ) (hp : p ≠ 0) (hq : 0 ≤ x / p) :
    ratRem x p = p * Int.fract (x / p) := by
  unfold ratRem qtrunc
  rw [if_pos hq]
  have hx : p * (x / p) = x := by field_simp
  have h2 : p * Int.fract (x / p) = p * (x / p) - p * (Int.floor (x / p) : ℚ) := by
    rw [← Int.self_sub_floor, mul_sub]
  rw [h2, hx]

/-- The Rust `%` remainder is sign-preserving and bounded by the (positive)
modulus in absolute value: the wrap by `PI` lands in the open interval
`(-PI, PI)` — a half-circle wrap, not a full-circle one. -/
theorem ratRem_bounds (x p : ℚ) (hp : 0 < p) :
    (0 ≤ x → 0 ≤ ratRem x p ∧ ratRem x p < p) ∧
    (x ≤ 0 → -p < ratRem x p ∧ ratRem x p ≤ 0) := by
  have hp0 : p ≠ 0 := ne_of_gt hp
  constructor
  · intro hx
    have hq : 0 ≤ x / p := div_nonneg hx (le_of_lt hp)
    rw [ratRem_eq_fract x p hp0 hq]
    constructor
    · exact mul_nonneg (le_of_lt hp) (Int.fract_nonneg _)
    · calc p * Int.fract (x / p) < p * 1 :=
          (mul_lt_mul_left hp).mpr (Int.fract_lt_one _)
        _ = p := mul_one p
  · intro hx
    by_cases hq : 0 ≤ x / p
    · have hq2 : x / p ≤ 0 := div_nonpos_iff.mpr (Or.inr ⟨hx, le_of_lt hp⟩)
      have hq0 : x / p = 0 := le_antisymm hq2 hq
      have hx0 : x = 0 := by
        have := congrArg (fun t => p * t) hq0
        simpa [mul_div_cancel₀, hp0] using this
      unfold ratRem qtrunc
      rw [if_pos hq, hq0, hx0]
      simp
      linarith
    · push_neg at hq
      unfold ratRem qtrunc
      rw [if_neg (not_le.mpr hq)]
      have hceil1 : (x / p) ≤ (Int.ceil (x / p) : ℚ) := Int.le_ceil _
      have hceil2 : ((Int.ceil (x / p) : ℤ) : ℚ) < x / p + 1 :=
        Int.ceil_lt_add_one _
      have hx2 : p * (x / p) = x := by field_simp
      constructor
      · have h3 : p * ((Int.ceil (x / p) : ℤ) : ℚ) < p * (x / p + 1) :=
          (mul_lt_mul_left hp).mpr hceil2
        have h4 : p * (x / p + 1) = x + p := by rw [mul_add, hx2, mul_one]
        linarith
      · have h5 : p * (x / p) ≤ p * ((Int.ceil (x / p) : ℤ) : ℚ) :=
          (mul_le_mul_left hp).mpr hceil1
        rw [hx2] at h5
        linarith

/-- C7: the per-body step of `Galaxy::update` computes exactly the delta the
spec describes — spherical conversion of the position relative to the found
center, azimuth advanced by `rotating_speed` times the scaled delta and
wrapped by the sign-preserving half-circle remainder `% PI`, converted back
and subtracted — discarding it (position unchanged) unless every axis is
normal; when no center resolves, the body is unchanged. The last conjunct
pins the wrap down as a half-circle modulus: for positive `p` the remainder
is sign-preserving and lies in `(-p, p)`. -/
theorem c7_orbital_step (K : Kernel) (delta : ℚ) (fuel : ℕ) (c : GBody)
    (rest : List GBody) :
    ((∀ center, rest.find? (fun g => g.id == c.gravity_center) = some center →
        (processBody K delta fuel c rest).1 =
          { c with coords := orbitalStepSpec K delta c center }) ∧
      (rest.find? (fun g => g.id == c.gravity_center) = none →
        (processBody K delta fuel c rest).1 = c)) ∧
    (∀ x p : ℚ, 0 < p →
      (0 ≤ x → 0 ≤ ratRem x p ∧ ratRem x p < p) ∧
      (x ≤ 0 → -p < ratRem x p ∧ ratRem x p ≤ 0)) := by
  refine ⟨⟨?_, ?_⟩, fun x p hp => ratRem_bounds x p hp⟩
  · intro center hfind
    unfold processBody orbitalStepSpec
    rw [hfind]
    simp only
    by_cases hx : K.isNormal (K.toCart
        { K.toSph (c.coords - center.coords) with
          phi := ratRem ((K.toSph (c.coords - center.coords)).phi +
            c.rotating_speed * delta) K.pi } -
        K.toCart (K.toSph (c.coords - center.coords))).x <;>
      by_cases hy : K.isNormal (K.toCart
        { K.toSph (c.coords - center.coords) with
          phi := ratRem ((K.toSph (c.coords - center.coords)).phi +
            c.rotating_speed * delta) K.pi } -
        K.toCart (K.toSph (c.coords - center.coords))).y <;>
      by_cases hz : K.isNormal (K.toCart
        { K.toSph (c.coords - center.coords) with
          phi := ratRem ((K.toSph (c.coords - center.coords)).phi +
            c.rotating_speed * delta) K.pi } -
        K.toCart (K.toSph (c.coords - center.coords))).z <;>
      simp [hx, hy, hz]
  · intro hfind
    unfold processBody
    rw [hfind]

/-- Witness for C7 at a concrete planet orbiting a found star, plus the
remainder bound at a concrete angle and modulus. -/
theorem c7_orbital_step_witness :
    (processBody cKernel 10 3 c10Planet [c1Body]).1 =
      { c10Planet with coords := orbitalStepSpec cKernel 10 c10Planet c1Body } ∧
    (0 ≤ ratRem 1 3 ∧ ratRem 1 3 < 3) :=
  ⟨(c7_orbital_step cKernel 10 3 c10Planet [c1Body]).1.1 c1Body rfl,
   ((c7_orbital_step cKernel 10 3 c10Planet [c1Body]).2 1 3 (by norm_num)).1
     (by norm_num)⟩

